import Mathlib

/-
Verification of the session-orchestration state machine of the
AI-Agentic-Chatbot-for-Business-Analysis repository.

The embedding follows the two source files:
  * src/app.py            (question generation, cache, Streamlit session reducer)
  * src/agents/base_agent.py (BaseAgent final / follow-up operations)

Strings used as cache-key material are modelled as lists of Unicode code
points (List Nat) so that the JSON escaping performed by json.dumps can be
reasoned about; all other text is modelled with Lean String.
Backend (Gemini) calls are modelled by their outcome: Except String String
(ok text / raised exception with message).
-/

namespace BizChat

/-! ## Question generation (app.py, generate_task_questions / fallback_questions) -/

/-- A parsed item of the generated-question JSON array.  Each field records
whether the corresponding key was present in the JSON object. -/
structure RawQ where
  qtype : Option String
  question : Option String
  options : Option (List String)
deriving DecidableEq, Repr

/-- The validation loop of generate_task_questions (app.py lines 106-113):
keeps MCQ/Radio items that carry an options key, keeps Input items after
defaulting a missing options key to the empty list, drops everything else. -/
def filter_valid : List RawQ → List RawQ
  | [] => []
  | q :: rest =>
    if q.qtype.isSome ∧ q.question.isSome then
      if (q.qtype = some "MCQ" ∨ q.qtype = some "Radio") ∧ q.options.isSome then
        q :: filter_valid rest
      else if q.qtype = some "Input" then
        { q with options := some (q.options.getD []) } :: filter_valid rest
      else
        filter_valid rest
    else filter_valid rest

/-- fallback_questions (app.py lines 131-137). -/
def fallback_questions : List RawQ :=
  [ ⟨some "MCQ", some "What is the company\x27s main focus?",
      some ["AI", "Finance", "Retail", "Healthcare"]⟩,
    ⟨some "Radio", some "Is the company profitable?", some ["Yes", "No", "Unsure"]⟩,
    ⟨some "Input", some "Describe your key product.", some []⟩ ]

/-- Outcome of one question-generation attempt, as seen after the backend
call and the json.loads step of generate_task_questions. -/
inductive GenOutcome
  | backendFail
  | parseFail
  | parsed (items : List RawQ)
deriving DecidableEq, Repr

/-- generate_task_questions (app.py lines 67-128), starting from the outcome
of the backend call and the JSON parse: a backend exception or a JSON decode
error yields the fallback; otherwise the validated items are kept, the
fallback being substituted when none survive, and at most 5 are returned. -/
def generate_task_questions (outcome : GenOutcome) : List RawQ :=
  match outcome with
  | .backendFail => fallback_questions
  | .parseFail => fallback_questions
  | .parsed items =>
    let valid := filter_valid items
    if valid = [] then fallback_questions else valid.take 5

example : generate_task_questions .parseFail = fallback_questions := rfl

example :
    generate_task_questions (.parsed [⟨some "MCQ", some "q", some []⟩])
      = [⟨some "MCQ", some "q", some []⟩] := by decide

/-! ## Profile normalization and the cache key (app.py lines 58-64 and 242)

Company-info strings are modelled as lists of Unicode code points so that
the escaping done by json.dumps (ensure_ascii, sorted keys) is explicit. -/

/-- The normalized company profile: the four fields projected by
normalize_company_info, each a list of Unicode code points. -/
structure Profile where
  name : List Nat
  industry : List Nat
  size : List Nat
  description : List Nat
deriving DecidableEq, Repr

/-- Raw company-info dictionary: an association list from key to string
value, first occurrence wins (a Python dict has unique keys, so the order
of the four entries is the only degree of freedom). -/
abbrev RawInfo : Type := List (String × List Nat)

/-- dict.get(key, "") on the raw company info. -/
def rawGet (r : RawInfo) (k : String) : List Nat :=
  match List.find? (fun p => p.1 == k) r with
  | some p => p.2
  | none => []

/-- normalize_company_info (app.py lines 58-64): project the four fields. -/
def normalize_company_info (r : RawInfo) : Profile :=
  { name := rawGet r "name"
    industry := rawGet r "industry"
    size := rawGet r "size"
    description := rawGet r "description" }

/-- Code points of a Lean string literal (used for the fixed ASCII parts of
the serialized key). -/
def lit (s : String) : List Nat :=
  s.data.map Char.toNat

/-- Hex digit as emitted by Python %04x formatting (lowercase). -/
def hexDig (d : Nat) : Nat :=
  if d < 10 then 48 + d else 87 + d

/-- Four-digit lowercase hex rendering of n (for \u escapes). -/
def hex4 (n : Nat) : List Nat :=
  [hexDig (n / 4096 % 16), hexDig (n / 256 % 16), hexDig (n / 16 % 16), hexDig (n % 16)]

/-- json.dumps escaping of one character with ensure_ascii=True:
backslash and quote get two-character escapes, the named control escapes
are used for backspace, tab, newline, form feed and carriage return, other
printable ASCII is emitted verbatim, anything else becomes a \uXXXX escape,
with a surrogate pair for code points above 0xFFFF. -/
def escChar (c : Nat) : List Nat :=
  if c = 34 then [92, 34]
  else if c = 92 then [92, 92]
  else if c = 8 then [92, 98]
  else if c = 9 then [92, 116]
  else if c = 10 then [92, 110]
  else if c = 12 then [92, 102]
  else if c = 13 then [92, 114]
  else if 32 ≤ c ∧ c ≤ 126 then [c]
  else if c < 65536 then 92 :: 117 :: hex4 c
  else 92 :: 117 :: hex4 (55296 + (c - 65536) / 1024)
        ++ 92 :: 117 :: hex4 (56320 + (c - 65536) % 1024)

/-- json.dumps escaping of a whole string body. -/
def esc (s : List Nat) : List Nat :=
  s.flatMap escChar

/-- json.dumps of the normalized profile with sort_keys=True and the default
separators: the keys appear in the fixed alphabetical order description,
industry, name, size. -/
def ser (p : Profile) : List Nat :=
  lit "\x7b\"description\": \"" ++ esc p.description
    ++ lit "\", \"industry\": \"" ++ esc p.industry
    ++ lit "\", \"name\": \"" ++ esc p.name
    ++ lit "\", \"size\": \"" ++ esc p.size
    ++ lit "\"\x7d"

/-- The cache key of app.py line 242:
f-string of the task, an underscore, and the serialized normalized profile. -/
def cache_key (task : String) (r : RawInfo) : List Nat :=
  lit task ++ 95 :: ser (normalize_company_info r)

/-- Cache key computed directly from an already-normalized profile (the
session stores only normalized profiles, and normalizing again is the
identity on them). -/
def cacheKeyOf (task : String) (p : Profile) : List Nat :=
  lit task ++ 95 :: ser p

example :
    cache_key "T" [("name", [65])]
      = cacheKeyOf "T" ⟨[65], [], [], []⟩ := by decide

/-- A usable Unicode code point: a scalar value (no lone surrogate). -/
abbrev ValidCp (c : Nat) : Prop :=
  c < 1114112 ∧ (c < 55296 ∨ 57344 ≤ c)

/-- All code points of the string are Unicode scalar values. -/
abbrev ValidStr (s : List Nat) : Prop :=
  ∀ c ∈ s, ValidCp c

/-- All four fields hold Unicode scalar values. -/
abbrev ValidProfile (p : Profile) : Prop :=
  ValidStr p.name ∧ ValidStr p.industry ∧ ValidStr p.size ∧ ValidStr p.description

/-! ### A decoder for the serialized profile.

The decoder below is a left inverse of the serialization on valid strings;
it exists only to prove that distinct normalized profiles get distinct cache
keys. -/

/-- Value of one lowercase hex digit (junk 0 on non-digits; the decoder is
only required to invert the encoder, whose output is always well formed). -/
def hexVal (c : Nat) : Nat :=
  if 48 ≤ c ∧ c ≤ 57 then c - 48
  else if 97 ≤ c ∧ c ≤ 102 then c - 87
  else 0

/-- Value of a 4-digit hex run. -/
def hex4Val (a b c d : Nat) : Nat :=
  hexVal a * 4096 + hexVal b * 256 + hexVal c * 16 + hexVal d

/-- Prepend a decoded character to a decoder result. -/
def consFst (c : Nat) : Option (List Nat × List Nat) → Option (List Nat × List Nat)
  | none => none
  | some (s, r) => some (c :: s, r)

/-- The UTF-16 code units json.dumps emits for one code point: the point
itself below 0x10000, otherwise its surrogate pair. -/
def toUnits (c : Nat) : List Nat :=
  if c < 65536 then [c]
  else [55296 + (c - 65536) / 1024, 56320 + (c - 65536) % 1024]

/-- The escape sequence of a single code unit (every unit is < 0x10000). -/
def escU (u : Nat) : List Nat :=
  if u = 34 then [92, 34]
  else if u = 92 then [92, 92]
  else if u = 8 then [92, 98]
  else if u = 9 then [92, 116]
  else if u = 10 then [92, 110]
  else if u = 12 then [92, 102]
  else if u = 13 then [92, 114]
  else if 32 ≤ u ∧ u ≤ 126 then [u]
  else 92 :: 117 :: hex4 u

/-- Recombine a surrogate pair into its code point; other units pass through. -/
def combine : List Nat → List Nat
  | [] => []
  | [u] => [u]
  | u :: v :: rest =>
    if 55296 ≤ u ∧ u < 56320 then
      (65536 + (u - 55296) * 1024 + (v - 56320)) :: combine rest
    else u :: combine (v :: rest)

/-- Fuel-indexed decoder of an escaped string body into its code units:
consumes characters up to (and including) the first unescaped quote, undoing
escU, and returns the decoded units and the remaining input. -/
def decUnits : Nat → List Nat → Option (List Nat × List Nat)
  | 0, _ => none
  | _ + 1, [] => none
  | fuel + 1, c :: rest =>
    if c = 34 then some ([], rest)
    else if c = 92 then
      match rest with
      | [] => none
      | e :: r2 =>
        if e = 34 then consFst 34 (decUnits fuel r2)
        else if e = 92 then consFst 92 (decUnits fuel r2)
        else if e = 98 then consFst 8 (decUnits fuel r2)
        else if e = 116 then consFst 9 (decUnits fuel r2)
        else if e = 110 then consFst 10 (decUnits fuel r2)
        else if e = 102 then consFst 12 (decUnits fuel r2)
        else if e = 114 then consFst 13 (decUnits fuel r2)
        else if e = 117 then
          match r2 with
          | a :: b :: c2 :: d :: r3 => consFst (hex4Val a b c2 d) (decUnits fuel r3)
          | _ => none
        else none
    else consFst c (decUnits fuel rest)

theorem hexVal_hexDig : ∀ d < 16, hexVal (hexDig d) = d := by decide

theorem hex4Val_hex4 (n : Nat) (h : n < 65536) :
    hex4Val (hexDig (n / 4096 % 16)) (hexDig (n / 256 % 16))
      (hexDig (n / 16 % 16)) (hexDig (n % 16)) = n := by
  have h1 := hexVal_hexDig (n / 4096 % 16) (Nat.mod_lt _ (by omega))
  have h2 := hexVal_hexDig (n / 256 % 16) (Nat.mod_lt _ (by omega))
  have h3 := hexVal_hexDig (n / 16 % 16) (Nat.mod_lt _ (by omega))
  have h4 := hexVal_hexDig (n % 16) (Nat.mod_lt _ (by omega))
  simp only [hex4Val, h1, h2, h3, h4]
  omega

theorem escChar_pr (c : Nat) (h34 : ¬c = 34) (h92 : ¬c = 92) (hpr : 32 ≤ c ∧ c ≤ 126) :
    escChar c = [c] := by
  have n8 : ¬c = 8 := by omega
  have n9 : ¬c = 9 := by omega
  have n10 : ¬c = 10 := by omega
  have n12 : ¬c = 12 := by omega
  have n13 : ¬c = 13 := by omega
  rw [escChar, if_neg h34, if_neg h92, if_neg n8, if_neg n9, if_neg n10,
    if_neg n12, if_neg n13, if_pos hpr]

theorem escU_pr (c : Nat) (h34 : ¬c = 34) (h92 : ¬c = 92) (hpr : 32 ≤ c ∧ c ≤ 126) :
    escU c = [c] := by
  have n8 : ¬c = 8 := by omega
  have n9 : ¬c = 9 := by omega
  have n10 : ¬c = 10 := by omega
  have n12 : ¬c = 12 := by omega
  have n13 : ¬c = 13 := by omega
  rw [escU, if_neg h34, if_neg h92, if_neg n8, if_neg n9, if_neg n10,
    if_neg n12, if_neg n13, if_pos hpr]

theorem escChar_bmp (c : Nat) (h34 : ¬c = 34) (h92 : ¬c = 92) (h8 : ¬c = 8) (h9 : ¬c = 9)
    (h10 : ¬c = 10) (h12 : ¬c = 12) (h13 : ¬c = 13) (hpr : ¬(32 ≤ c ∧ c ≤ 126))
    (hu : c < 65536) : escChar c = 92 :: 117 :: hex4 c := by
  rw [escChar, if_neg h34, if_neg h92, if_neg h8, if_neg h9, if_neg h10, if_neg h12,
    if_neg h13, if_neg hpr, if_pos hu]

theorem escU_other (c : Nat) (h34 : ¬c = 34) (h92 : ¬c = 92) (h8 : ¬c = 8) (h9 : ¬c = 9)
    (h10 : ¬c = 10) (h12 : ¬c = 12) (h13 : ¬c = 13) (hpr : ¬(32 ≤ c ∧ c ≤ 126)) :
    escU c = 92 :: 117 :: hex4 c := by
  rw [escU, if_neg h34, if_neg h92, if_neg h8, if_neg h9, if_neg h10, if_neg h12,
    if_neg h13, if_neg hpr]

theorem escChar_astral (c : Nat) (hu : ¬c < 65536) :
    escChar c = 92 :: 117 :: hex4 (55296 + (c - 65536) / 1024)
      ++ 92 :: 117 :: hex4 (56320 + (c - 65536) % 1024) := by
  have n34 : ¬c = 34 := by omega
  have n92 : ¬c = 92 := by omega
  have n8 : ¬c = 8 := by omega
  have n9 : ¬c = 9 := by omega
  have n10 : ¬c = 10 := by omega
  have n12 : ¬c = 12 := by omega
  have n13 : ¬c = 13 := by omega
  have npr : ¬(32 ≤ c ∧ c ≤ 126) := by omega
  rw [escChar, if_neg n34, if_neg n92, if_neg n8, if_neg n9, if_neg n10,
    if_neg n12, if_neg n13, if_neg npr, if_neg hu]

theorem escU_surrogate (u : Nat) (h : 55296 ≤ u) : escU u = 92 :: 117 :: hex4 u := by
  have n34 : ¬u = 34 := by omega
  have n92 : ¬u = 92 := by omega
  have n8 : ¬u = 8 := by omega
  have n9 : ¬u = 9 := by omega
  have n10 : ¬u = 10 := by omega
  have n12 : ¬u = 12 := by omega
  have n13 : ¬u = 13 := by omega
  have npr : ¬(32 ≤ u ∧ u ≤ 126) := by omega
  rw [escU, if_neg n34, if_neg n92, if_neg n8, if_neg n9, if_neg n10,
    if_neg n12, if_neg n13, if_neg npr]

/-- escChar agrees with escaping each UTF-16 unit of the code point. -/
theorem escChar_eq_units (c : Nat) : escChar c = (toUnits c).flatMap escU := by
  rcases Nat.lt_or_ge c 65536 with h | h
  · rw [show toUnits c = [c] by rw [toUnits, if_pos h]]
    simp only [List.flatMap_cons, List.flatMap_nil, List.append_nil]
    by_cases h34 : c = 34
    · subst h34; rfl
    by_cases h92 : c = 92
    · subst h92; rfl
    by_cases h8 : c = 8
    · subst h8; rfl
    by_cases h9 : c = 9
    · subst h9; rfl
    by_cases h10 : c = 10
    · subst h10; rfl
    by_cases h12 : c = 12
    · subst h12; rfl
    by_cases h13 : c = 13
    · subst h13; rfl
    by_cases hpr : 32 ≤ c ∧ c ≤ 126
    · rw [escChar_pr c h34 h92 hpr, escU_pr c h34 h92 hpr]
    · rw [escChar_bmp c h34 h92 h8 h9 h10 h12 h13 hpr h,
        escU_other c h34 h92 h8 h9 h10 h12 h13 hpr]
  · rw [show toUnits c = [55296 + (c - 65536) / 1024, 56320 + (c - 65536) % 1024] by
      rw [toUnits, if_neg (by omega)]]
    simp only [List.flatMap_cons, List.flatMap_nil, List.append_nil]
    rw [escChar_astral c (by omega), escU_surrogate _ (by omega),
      escU_surrogate _ (by omega)]

/-- The escaping of a string is the unit-by-unit escaping of its UTF-16 units. -/
theorem esc_eq_units (s : List Nat) : esc s = (s.flatMap toUnits).flatMap escU := by
  induction s with
  | nil => rfl
  | cons c s ih =>
    rw [show esc (c :: s) = escChar c ++ esc s from List.flatMap_cons ..]
    rw [List.flatMap_cons, List.flatMap_append, escChar_eq_units, ih]


theorem decUnits_escU (units : List Nat) : ∀ (fuel : Nat) (rest : List Nat),
    units.length < fuel → (∀ u ∈ units, u < 65536) →
    decUnits fuel (units.flatMap escU ++ 34 :: rest) = some (units, rest) := by
  induction units with
  | nil =>
    intro fuel rest hf _
    obtain ⟨f, rfl⟩ : ∃ f, fuel = f + 1 := ⟨fuel - 1, by omega⟩
    simp [decUnits]
  | cons u units ih =>
    intro fuel rest hf hv
    obtain ⟨f, rfl⟩ : ∃ f, fuel = f + 1 := ⟨fuel - 1, by omega⟩
    have hfs : units.length < f := by simp at hf; omega
    have hvs : ∀ x ∈ units, x < 65536 := fun x hx => hv x (List.mem_cons_of_mem _ hx)
    have hvu : u < 65536 := hv u (List.mem_cons_self _ _)
    have ihs := ih f rest hfs hvs
    rw [List.flatMap_cons, List.append_assoc]
    by_cases h34 : u = 34
    · subst h34
      rw [show escU 34 = [92, 34] from rfl]
      simp only [List.cons_append, List.nil_append]
      simp [decUnits, ihs, consFst]
    by_cases h92 : u = 92
    · subst h92
      rw [show escU 92 = [92, 92] from rfl]
      simp only [List.cons_append, List.nil_append]
      simp [decUnits, ihs, consFst]
    by_cases h8 : u = 8
    · subst h8
      rw [show escU 8 = [92, 98] from rfl]
      simp only [List.cons_append, List.nil_append]
      simp [decUnits, ihs, consFst]
    by_cases h9 : u = 9
    · subst h9
      rw [show escU 9 = [92, 116] from rfl]
      simp only [List.cons_append, List.nil_append]
      simp [decUnits, ihs, consFst]
    by_cases h10 : u = 10
    · subst h10
      rw [show escU 10 = [92, 110] from rfl]
      simp only [List.cons_append, List.nil_append]
      simp [decUnits, ihs, consFst]
    by_cases h12 : u = 12
    · subst h12
      rw [show escU 12 = [92, 102] from rfl]
      simp only [List.cons_append, List.nil_append]
      simp [decUnits, ihs, consFst]
    by_cases h13 : u = 13
    · subst h13
      rw [show escU 13 = [92, 114] from rfl]
      simp only [List.cons_append, List.nil_append]
      simp [decUnits, ihs, consFst]
    by_cases hpr : 32 ≤ u ∧ u ≤ 126
    · rw [escU_pr u h34 h92 hpr]
      simp only [List.cons_append, List.nil_append]
      rw [show decUnits (f + 1) (u :: (units.flatMap escU ++ 34 :: rest))
            = consFst u (decUnits f (units.flatMap escU ++ 34 :: rest)) by
        simp [decUnits, h34, h92]]
      rw [ihs]; rfl
    · rw [escU_other u h34 h92 h8 h9 h10 h12 h13 hpr]
      simp only [hex4, List.cons_append, List.nil_append]
      rw [show decUnits (f + 1)
            (92 :: 117 :: hexDig (u / 4096 % 16) :: hexDig (u / 256 % 16) ::
              hexDig (u / 16 % 16) :: hexDig (u % 16) :: (units.flatMap escU ++ 34 :: rest))
          = consFst u (decUnits f (units.flatMap escU ++ 34 :: rest)) by
        simp only [decUnits]
        norm_num
        rw [hex4Val_hex4 u hvu]]
      rw [ihs]; rfl

theorem combine_low (u : Nat) (rest : List Nat) (h : ¬(55296 ≤ u ∧ u < 56320)) :
    combine (u :: rest) = u :: combine rest := by
  match rest with
  | [] => rfl
  | v :: rest2 =>
    simp only [combine]
    rw [if_neg h]

theorem combine_pair (u v : Nat) (rest : List Nat) (h1 : 55296 ≤ u) (h2 : u < 56320) :
    combine (u :: v :: rest) = (65536 + (u - 55296) * 1024 + (v - 56320)) :: combine rest := by
  simp only [combine]
  rw [if_pos ⟨h1, h2⟩]

/-- Recombining the UTF-16 units of a valid string gives the string back. -/
theorem combine_toUnits (s : List Nat) (hv : ValidStr s) :
    combine (s.flatMap toUnits) = s := by
  induction s with
  | nil => rfl
  | cons c s ih =>
    have hvs : ValidStr s := fun x hx => hv x (List.mem_cons_of_mem _ hx)
    have hvc : ValidCp c := hv c (List.mem_cons_self _ _)
    rw [List.flatMap_cons]
    rcases Nat.lt_or_ge c 65536 with h | h
    · rw [show toUnits c = [c] by rw [toUnits, if_pos h]]
      simp only [List.cons_append, List.nil_append]
      rw [combine_low c _ (by rcases hvc.2 with h2 | h2 <;> omega), ih hvs]
    · rw [show toUnits c = [55296 + (c - 65536) / 1024, 56320 + (c - 65536) % 1024] by
        rw [toUnits, if_neg (by omega)]]
      simp only [List.cons_append, List.nil_append]
      rw [combine_pair _ _ _ (by omega) (by omega), ih hvs]
      have hm := Nat.mod_lt (c - 65536) (show 0 < 1024 by omega)
      have hc2 : 65536 + (55296 + (c - 65536) / 1024 - 55296) * 1024
          + (56320 + (c - 65536) % 1024 - 56320) = c := by omega
      rw [hc2]

/-- Every UTF-16 unit of a valid code point fits in 16 bits. -/
theorem toUnits_lt (c : Nat) (hc : c < 1114112) : ∀ u ∈ toUnits c, u < 65536 := by
  intro u hu
  rw [toUnits] at hu
  rcases Nat.lt_or_ge c 65536 with h | h
  · rw [if_pos h] at hu
    simp at hu
    omega
  · rw [if_neg (by omega)] at hu
    have hm := Nat.mod_lt (c - 65536) (show 0 < 1024 by omega)
    simp at hu
    rcases hu with h1 | h1
    · omega
    · omega

theorem escU_ne_nil (u : Nat) : escU u ≠ [] := by
  rw [escU]
  by_cases h34 : u = 34
  · rw [if_pos h34]; simp
  rw [if_neg h34]
  by_cases h92 : u = 92
  · rw [if_pos h92]; simp
  rw [if_neg h92]
  by_cases h8 : u = 8
  · rw [if_pos h8]; simp
  rw [if_neg h8]
  by_cases h9 : u = 9
  · rw [if_pos h9]; simp
  rw [if_neg h9]
  by_cases h10 : u = 10
  · rw [if_pos h10]; simp
  rw [if_neg h10]
  by_cases h12 : u = 12
  · rw [if_pos h12]; simp
  rw [if_neg h12]
  by_cases h13 : u = 13
  · rw [if_pos h13]; simp
  rw [if_neg h13]
  by_cases hpr : 32 ≤ u ∧ u ≤ 126
  · rw [if_pos hpr]; simp
  · rw [if_neg hpr]; simp

theorem length_le_flatMap_escU (units : List Nat) :
    units.length ≤ (units.flatMap escU).length := by
  induction units with
  | nil => simp
  | cons u units ih =>
    rw [List.flatMap_cons, List.length_append, List.length_cons]
    have h1 : 1 ≤ (escU u).length := by
      rcases h : escU u with _ | _
      · exact absurd h (escU_ne_nil u)
      · simp
    omega

/-- String-level decoder: decode the escaped body into units, then recombine
surrogate pairs. -/
def decField (l : List Nat) : Option (List Nat × List Nat) :=
  match decUnits (l.length + 1) l with
  | none => none
  | some (us, r) => some (combine us, r)

/-- The string decoder undoes json.dumps escaping of any valid string. -/
theorem decField_esc (s rest : List Nat) (hv : ValidStr s) :
    decField (esc s ++ 34 :: rest) = some (s, rest) := by
  have hu : ∀ u ∈ s.flatMap toUnits, u < 65536 := by
    intro u hu
    rcases List.mem_flatMap.mp hu with ⟨c, hc, hin⟩
    exact toUnits_lt c (hv c hc).1 u hin
  have hlen : (s.flatMap toUnits).length < (esc s ++ 34 :: rest).length + 1 := by
    have h1 := length_le_flatMap_escU (s.flatMap toUnits)
    rw [esc_eq_units] at *
    rw [List.length_append]
    omega
  rw [decField, esc_eq_units]
  rw [decUnits_escU (s.flatMap toUnits) _ rest (by rw [esc_eq_units] at hlen; exact hlen) hu]
  show some (combine (s.flatMap toUnits), rest) = some (s, rest)
  rw [combine_toUnits s hv]

/-- Consume an expected literal prefix. -/
def dropLit : List Nat → List Nat → Option (List Nat)
  | [], r => some r
  | _ :: _, [] => none
  | x :: xs, y :: ys => if x = y then dropLit xs ys else none

theorem dropLit_append (l r : List Nat) : dropLit l (l ++ r) = some r := by
  induction l with
  | nil => rfl
  | cons x xs ih => simp [dropLit, ih]

/-- Decoder of the whole serialized profile (left inverse of ser on valid
profiles). -/
def decProfile (l : List Nat) : Option Profile :=
  match dropLit (lit "\x7b\"description\": \"") l with
  | none => none
  | some r1 =>
    match decField r1 with
    | none => none
    | some (d, r2) =>
      match dropLit (lit ", \"industry\": \"") r2 with
      | none => none
      | some r3 =>
        match decField r3 with
        | none => none
        | some (ind, r4) =>
          match dropLit (lit ", \"name\": \"") r4 with
          | none => none
          | some r5 =>
            match decField r5 with
            | none => none
            | some (nm, r6) =>
              match dropLit (lit ", \"size\": \"") r6 with
              | none => none
              | some r7 =>
                match decField r7 with
                | none => none
                | some (sz, r8) =>
                  if r8 = lit "\x7d" then some ⟨nm, ind, sz, d⟩ else none

theorem lit_industry : lit "\", \"industry\": \"" = 34 :: lit ", \"industry\": \"" := by decide

theorem lit_name : lit "\", \"name\": \"" = 34 :: lit ", \"name\": \"" := by decide

theorem lit_size : lit "\", \"size\": \"" = 34 :: lit ", \"size\": \"" := by decide

theorem lit_end : lit "\"\x7d" = 34 :: lit "\x7d" := by decide

/-- The profile decoder undoes ser on valid profiles. -/
theorem decProfile_ser (p : Profile) (hp : ValidProfile p) : decProfile (ser p) = some p := by
  have hser : ser p = lit "\x7b\"description\": \"" ++ (esc p.description
      ++ 34 :: (lit ", \"industry\": \"" ++ (esc p.industry
      ++ 34 :: (lit ", \"name\": \"" ++ (esc p.name
      ++ 34 :: (lit ", \"size\": \"" ++ (esc p.size
      ++ 34 :: lit "\x7d"))))))) := by
    rw [ser, lit_industry, lit_name, lit_size, lit_end]
    simp [List.append_assoc]
  have e1 := decField_esc p.description (lit ", \"industry\": \"" ++ (esc p.industry
      ++ 34 :: (lit ", \"name\": \"" ++ (esc p.name
      ++ 34 :: (lit ", \"size\": \"" ++ (esc p.size
      ++ 34 :: lit "\x7d")))))) hp.2.2.2
  have e2 := decField_esc p.industry (lit ", \"name\": \"" ++ (esc p.name
      ++ 34 :: (lit ", \"size\": \"" ++ (esc p.size
      ++ 34 :: lit "\x7d")))) hp.2.1
  have e3 := decField_esc p.name (lit ", \"size\": \"" ++ (esc p.size
      ++ 34 :: lit "\x7d")) hp.1
  have e4 := decField_esc p.size (lit "\x7d") hp.2.2.1
  rw [hser]
  simp only [decProfile, dropLit_append, e1, e2, e3, e4, if_pos rfl]
  rfl

/-- ser is injective on valid profiles. -/
theorem ser_inj (p q : Profile) (hp : ValidProfile p) (hq : ValidProfile q)
    (h : ser p = ser q) : p = q := by
  have h1 : decProfile (ser p) = some p := decProfile_ser p hp
  rw [h, decProfile_ser q hq] at h1
  exact (Option.some.inj h1).symm

/-- C8: for a fixed task, Profiles equal after normalization produce the
identical cache key regardless of original field order, and Profiles
differing in any of the four normalized fields produce different cache keys
(stated for fields made of Unicode scalar values, which is every Python
string that json.dumps round-trips). -/
theorem c8_cache_key_injective (task : String) (r1 r2 : RawInfo)
    (h1 : ValidProfile (normalize_company_info r1))
    (h2 : ValidProfile (normalize_company_info r2)) :
    (normalize_company_info r1 = normalize_company_info r2 →
      cache_key task r1 = cache_key task r2) ∧
    (normalize_company_info r1 ≠ normalize_company_info r2 →
      cache_key task r1 ≠ cache_key task r2) := by
  constructor
  · intro h
    rw [cache_key, cache_key, h]
  · intro hne hk
    apply hne
    rw [cache_key, cache_key] at hk
    have h3 := List.append_cancel_left hk
    exact ser_inj _ _ h1 h2 (List.cons.inj h3).2

/-- Witness for C8: two orderings of the same profile fields collide, a
change of one normalized field separates. -/
theorem c8_cache_key_injective_witness :
    cache_key "Strategic Planning"
        [("industry", lit "Retail"), ("name", lit "Acme")]
      = cache_key "Strategic Planning"
        [("name", lit "Acme"), ("industry", lit "Retail")] ∧
    cache_key "Strategic Planning"
        [("industry", lit "Retail"), ("name", lit "Acme")]
      ≠ cache_key "Strategic Planning"
        [("industry", lit "Tech"), ("name", lit "Acme")] :=
  ⟨(c8_cache_key_injective "Strategic Planning"
      [("industry", lit "Retail"), ("name", lit "Acme")]
      [("name", lit "Acme"), ("industry", lit "Retail")]
      (by decide) (by decide)).1 (by decide),
   (c8_cache_key_injective "Strategic Planning"
      [("industry", lit "Retail"), ("name", lit "Acme")]
      [("industry", lit "Tech"), ("name", lit "Acme")]
      (by decide) (by decide)).2 (by decide)⟩

/-! ## The session orchestrator (app.py, main)

Each interactive handler of the Streamlit script is one event of a reducer
over the session state; a handler's body runs only when the enclosing
render conditions of app.py hold, which appear below as the gate of the
corresponding step function. -/

inductive Role
  | assistant
  | user
deriving DecidableEq, Repr

/-- One message of st.session_state.conversation. -/
structure Turn where
  role : Role
  content : String
  is_final_or_follow_up : Bool
deriving DecidableEq, Repr

/-- One record of st.session_state.answers (app.py lines 313-317). -/
structure Answer where
  question : String
  answer : String
  qtype : String
deriving DecidableEq, Repr

/-- max_follow_ups (app.py line 167). -/
def max_follow_ups : Nat := 5

/-- st.session_state (app.py lines 42-43 and 146-179).  company_info is
none for the initial empty dict, some p once a normalized profile was
committed; the agent object is represented by the task name it was built
from. -/
structure SessionState where
  conversation : List Turn
  company_info : Option Profile
  last_company_info : Option Profile
  selected_task : Option String
  agentTask : Option String
  last_task : Option String
  question_phase : Bool
  questions_asked : Nat
  current_questions : List RawQ
  answers : List Answer
  final_response_generated : Bool
  follow_up_count : Nat
  ratings : List (Nat × Nat)
  show_follow_up : Bool
  analysis_error : Option String
  question_cache : List (List Nat × List RawQ)
  api_call_count : Nat
deriving DecidableEq, Repr

/-- The freshly initialized session. -/
def initState : SessionState where
  conversation := []
  company_info := none
  last_company_info := none
  selected_task := none
  agentTask := none
  last_task := none
  question_phase := true
  questions_asked := 0
  current_questions := []
  answers := []
  final_response_generated := false
  follow_up_count := 0
  ratings := []
  show_follow_up := false
  analysis_error := none
  question_cache := []
  api_call_count := 0

/-- BaseAgent.generate_final_response (base_agent.py lines 6-19), as a
function of the backend call outcome: a successful completion is stripped
and returned, an exception is absorbed into a descriptive error string.
The operation itself never raises on a backend failure. -/
def generate_final_response (backend : Except String String) : String :=
  match backend with
  | .ok text => text.trim
  | .error e => "Error generating response: " ++ e

/-- BaseAgent.generate_follow_up_response (base_agent.py lines 21-34):
a backend exception is absorbed into a fixed apology string. -/
def generate_follow_up_response (backend : Except String String) : String :=
  match backend with
  | .ok text => text.trim
  | .error _ => "Unable to process follow-up question."

/-- Lookup of st.session_state.ratings (a dict keyed by Turn index). -/
def lookupRating (idx : Nat) (l : List (Nat × Nat)) : Option Nat :=
  match List.find? (fun p => p.1 == idx) l with
  | some p => some p.2
  | none => none

/-- Lookup of st.session_state.question_cache (a dict keyed by cache key). -/
def lookupCache (k : List Nat) (c : List (List Nat × List RawQ)) : Option (List RawQ) :=
  match List.find? (fun p => p.1 == k) c with
  | some p => some p.2
  | none => none

/-- The discrete user actions and automatic script blocks of app.py, each
carrying the outcome of any backend call it performs.  analysisRun and
followUpSubmit carry the result of the agent method call: ok with the
returned string (the normal case, including absorbed backend failures),
or error when the call itself raises in the orchestrator. -/
inductive Event
  | profileSubmit (name industry size description : List Nat)
  | taskSelect (t : String)
  | resolveQuestions (outcome : GenOutcome)
  | answerSubmit (ans : String)
  | ratingSubmit (idx val : Nat)
  | analysisRun (agentResult : Except String String)
  | followUpSubmit (input : String) (agentResult : Except String String)
  | clearHistory

/-- The company-info form handler (app.py lines 189-215): requires name and
industry non-empty; on a normalized value different from the stored one,
resets everything except the conversation, the agent, last_task and the
api-call counter; an unchanged profile is a no-op. -/
def profileStep (s : SessionState) (name industry size description : List Nat) : SessionState :=
  if name ≠ [] ∧ industry ≠ [] then
    let p := normalize_company_info
      [("name", name), ("industry", industry), ("size", size), ("description", description)]
    if some p ≠ s.company_info then
      { s with
        company_info := some p
        last_company_info := some p
        selected_task := none
        current_questions := []
        answers := []
        question_phase := true
        questions_asked := 0
        final_response_generated := false
        follow_up_count := 0
        ratings := []
        show_follow_up := false
        question_cache := []
        analysis_error := none }
    else s
  else s

/-- The task selector handler (app.py lines 219-234): on a non-blank task
different from the current one, resets the task-scoped fields; the question
cache and company info are preserved. -/
def taskStep (s : SessionState) (t : String) : SessionState :=
  if t ≠ "" ∧ some t ≠ s.selected_task then
    { s with
      selected_task := some t
      conversation := []
      agentTask := some t
      current_questions := []
      answers := []
      question_phase := true
      questions_asked := 0
      final_response_generated := false
      follow_up_count := 0
      ratings := []
      show_follow_up := false
      last_task := some t
      analysis_error := none }
  else s

/-- The question-resolution block (app.py lines 236-250): with a task and
company info present and no current questions, use the cache on a hit, and
on a miss generate, store and use the result; the api counter advanced
inside generate_task_questions only when the backend call succeeded. -/
def resolveStep (s : SessionState) (outcome : GenOutcome) : SessionState :=
  match s.selected_task, s.company_info with
  | some t, some p =>
    if s.current_questions = [] then
      match lookupCache (cacheKeyOf t p) s.question_cache with
      | some qs => { s with current_questions := qs }
      | none =>
        { s with
          current_questions := generate_task_questions outcome
          question_cache := (cacheKeyOf t p, generate_task_questions outcome) :: s.question_cache
          api_call_count := s.api_call_count + (if outcome = .backendFail then 0 else 1) }
    else s
  | _, _ => s

/-- The per-question form handler (app.py lines 300-324). -/
def answerStep (s : SessionState) (ans : String) : SessionState :=
  if s.company_info ≠ none ∧ s.selected_task ≠ none ∧ s.current_questions ≠ []
      ∧ s.question_phase = true ∧ s.questions_asked < s.current_questions.length then
    match s.current_questions[s.questions_asked]? with
    | none => s
    | some q =>
      if ans ≠ "" ∨ q.qtype = some "MCQ" ∨ q.qtype = some "Radio" then
        { s with
          conversation := s.conversation
            ++ [⟨.assistant, q.question.getD "", false⟩, ⟨.user, ans, false⟩]
          answers := s.answers ++ [⟨q.question.getD "", ans, q.qtype.getD ""⟩]
          questions_asked := s.questions_asked + 1
          question_phase :=
            if s.questions_asked + 1 ≥ s.current_questions.length then false
            else s.question_phase }
      else s
  else s

/-- The rating form handler (app.py lines 284-297): the form exists only
for an unrated assistant Turn with the final/follow-up mark; rating the
last Turn opens the follow-up box. -/
def ratingStep (s : SessionState) (idx val : Nat) : SessionState :=
  if s.company_info ≠ none ∧ s.selected_task ≠ none ∧ s.current_questions ≠ [] then
    match s.conversation[idx]? with
    | some m =>
      if m.role = .assistant ∧ m.is_final_or_follow_up = true
          ∧ lookupRating idx s.ratings = none then
        { s with
          ratings := (idx, val) :: s.ratings
          show_follow_up :=
            if idx = s.conversation.length - 1 ∧ s.show_follow_up = false then true
            else s.show_follow_up }
      else s
    | none => s
  else s

/-- The final-analysis block (app.py lines 327-358): fires after the last
question while no final response exists.  On a returned string: count the
call, append the final Turn, set the flag.  When the agent call itself
raises: record the session error and change nothing else. -/
def analysisStep (s : SessionState) (agentResult : Except String String) : SessionState :=
  if s.company_info ≠ none ∧ s.selected_task ≠ none ∧ s.current_questions ≠ []
      ∧ s.question_phase = false ∧ s.final_response_generated = false then
    match agentResult with
    | .ok resp =>
      { s with
        api_call_count := s.api_call_count + 1
        conversation := s.conversation ++ [⟨.assistant, resp, true⟩]
        final_response_generated := true }
    | .error e =>
      { s with analysis_error := some ("Failed to generate analysis: " ++ e) }
  else s

/-- The follow-up chat handler (app.py lines 361-385): guarded by the
absence of a recorded analysis error (the elif chain of lines 361-365), the
generated final response, the follow-up cap and the show_follow_up flag.
The user Turn and the counter advance before the agent call; on a returned
string the reply Turn is appended and the call counted; when the agent
call itself raises nothing further changes. -/
def followUpStep (s : SessionState) (input : String) (agentResult : Except String String) :
    SessionState :=
  if s.company_info ≠ none ∧ s.selected_task ≠ none ∧ s.current_questions ≠ []
      ∧ s.analysis_error = none ∧ s.final_response_generated = true
      ∧ s.follow_up_count < max_follow_ups ∧ s.show_follow_up = true ∧ input ≠ "" then
    match agentResult with
    | .ok resp =>
      { s with
        conversation := s.conversation ++ [⟨.user, input, false⟩, ⟨.assistant, resp, true⟩]
        follow_up_count := s.follow_up_count + 1
        api_call_count := s.api_call_count + 1 }
    | .error _ =>
      { s with
        conversation := s.conversation ++ [⟨.user, input, false⟩]
        follow_up_count := s.follow_up_count + 1 }
  else s

/-- The Clear History button (app.py lines 252-269): company info and its
cached copy survive, everything else is reset. -/
def clearStep (s : SessionState) : SessionState :=
  { s with
    conversation := []
    agentTask := none
    selected_task := none
    question_phase := true
    questions_asked := 0
    current_questions := []
    answers := []
    final_response_generated := false
    follow_up_count := 0
    ratings := []
    show_follow_up := false
    last_task := none
    api_call_count := 0
    question_cache := []
    analysis_error := none }

/-- One step of the session reducer. -/
def step (s : SessionState) : Event → SessionState
  | .profileSubmit n i sz d => profileStep s n i sz d
  | .taskSelect t => taskStep s t
  | .resolveQuestions o => resolveStep s o
  | .answerSubmit a => answerStep s a
  | .ratingSubmit idx v => ratingStep s idx v
  | .analysisRun r => analysisStep s r
  | .followUpSubmit inp r => followUpStep s inp r
  | .clearHistory => clearStep s

/-- The session states a run of the app can reach. -/
inductive Reachable : SessionState → Prop
  | init : Reachable initState
  | next (s : SessionState) (e : Event) : Reachable s → Reachable (step s e)

/-- Run a list of events from the fresh session. -/
def runEvents (l : List Event) : SessionState :=
  List.foldl step initState l

theorem reachable_foldl (l : List Event) :
    ∀ s : SessionState, Reachable s → Reachable (List.foldl step s l) := by
  induction l with
  | nil => exact fun s h => h
  | cons e l ih => exact fun s h => ih (step s e) (Reachable.next s e h)

theorem reachable_runEvents (l : List Event) : Reachable (runEvents l) :=
  reachable_foldl l initState Reachable.init

/-! ## Concrete runs (all reachable by construction) -/

/-- A session that commits a profile, picks a task, resolves the fallback
question set (the backend reply did not parse) and answers the three
questions. -/
def analysisReadyEvents : List Event :=
  [ .profileSubmit (lit "Acme") (lit "Retail") (lit "50") [],
    .taskSelect "Strategic Planning",
    .resolveQuestions .parseFail,
    .answerSubmit "a1", .answerSubmit "a2", .answerSubmit "a3" ]

def analysisReadyState : SessionState := runEvents analysisReadyEvents

/-- The same session after a successful final analysis and a rating of the
final Turn (index 6, the last one). -/
def ratedEvents : List Event :=
  analysisReadyEvents ++ [.analysisRun (.ok "Analysis"), .ratingSubmit 6 4]

def ratedState : SessionState := runEvents ratedEvents

/-- The same session after five accepted follow-ups. -/
def fullEvents : List Event :=
  ratedEvents ++
    [ .followUpSubmit "f1" (.ok "r1"), .followUpSubmit "f2" (.ok "r2"),
      .followUpSubmit "f3" (.ok "r3"), .followUpSubmit "f4" (.ok "r4"),
      .followUpSubmit "f5" (.ok "r5") ]

def fullState : SessionState := runEvents fullEvents

example : analysisReadyState.conversation.length = 6 := by decide
example : analysisReadyState.question_phase = false := by decide
example : analysisReadyState.final_response_generated = false := by decide
example : analysisReadyState.answers.length = 3 := by decide
example : analysisReadyState.question_cache ≠ [] := by decide
example : ratedState.conversation.length = 7 := by decide
example : ratedState.show_follow_up = true := by decide
example : ratedState.ratings = [(6, 4)] := by decide
example : fullState.follow_up_count = 5 := by decide
example : fullState.conversation.length = 17 := by decide

/-! ## Claim theorems -/

theorem follow_up_count_le_step (s : SessionState) (e : Event)
    (h : s.follow_up_count ≤ max_follow_ups) :
    (step s e).follow_up_count ≤ max_follow_ups := by
  cases e with
  | profileSubmit n i sz d =>
    simp only [step, profileStep]
    split_ifs <;> first | exact h | exact Nat.zero_le _
  | taskSelect t =>
    simp only [step, taskStep]
    split_ifs <;> first | exact h | exact Nat.zero_le _
  | resolveQuestions o =>
    simp only [step, resolveStep]
    repeat' split
    all_goals exact h
  | answerSubmit a =>
    simp only [step, answerStep]
    repeat' split
    all_goals exact h
  | ratingSubmit idx v =>
    simp only [step, ratingStep]
    repeat' split
    all_goals exact h
  | analysisRun r =>
    simp only [step, analysisStep]
    repeat' split
    all_goals exact h
  | followUpSubmit inp r =>
    simp only [step, followUpStep]
    split_ifs with hg
    · rcases hg with ⟨-, -, -, -, -, hlt, -, -⟩
      cases r <;> exact hlt
    · exact h
  | clearHistory => exact Nat.zero_le _

/-- C3: in every reachable session state, follow_up_count is at most the
constant max_follow_ups = 5, and once it equals 5 a follow-up submission
leaves the state (in particular the conversation) unchanged. -/
theorem c3_follow_up_bound (s : SessionState) (h : Reachable s) :
    s.follow_up_count ≤ max_follow_ups ∧
    (s.follow_up_count = max_follow_ups →
      ∀ (input : String) (r : Except String String),
        step s (.followUpSubmit input r) = s) := by
  constructor
  · induction h with
    | init => exact Nat.zero_le _
    | next s e hs ih => exact follow_up_count_le_step s e ih
  · intro hfull input r
    simp only [step, followUpStep]
    rw [if_neg fun hc => absurd hc.2.2.2.2.2.1 (by omega)]

/-- Witness for C3, at the reachable state with the cap attained: the sixth
follow-up attempt is a no-op. -/
theorem c3_follow_up_bound_witness :
    fullState.follow_up_count ≤ max_follow_ups ∧
    step fullState (.followUpSubmit "f6" (.ok "r6")) = fullState :=
  ⟨(c3_follow_up_bound fullState (reachable_runEvents fullEvents)).1,
   (c3_follow_up_bound fullState (reachable_runEvents fullEvents)).2 (by decide)
     "f6" (.ok "r6")⟩

/-- C9: a recorded rating for a Turn index is never overwritten: a second
rating submission for the same index leaves the recorded value unchanged. -/
theorem c9_rating_never_overwritten (s : SessionState) (idx v v2 : Nat)
    (h : lookupRating idx s.ratings = some v) :
    lookupRating idx ((step s (.ratingSubmit idx v2)).ratings) = some v := by
  simp only [step, ratingStep]
  by_cases h1 : s.company_info ≠ none ∧ s.selected_task ≠ none ∧ s.current_questions ≠ []
  · rw [if_pos h1]
    rcases hm : s.conversation[idx]? with _ | m
    · simp only [hm]
      exact h
    · simp only [hm]
      by_cases h2 : m.role = Role.assistant ∧ m.is_final_or_follow_up = true
          ∧ lookupRating idx s.ratings = none
      · exact absurd h2.2.2 (by simp [h])
      · simp only [if_neg h2]
        exact h
  · rw [if_neg h1]
    exact h

/-- Witness for C9: re-rating Turn 6 of the rated demo session keeps the
first value 4. -/
theorem c9_rating_never_overwritten_witness :
    lookupRating 6 ((step ratedState (.ratingSubmit 6 2)).ratings) = some 4 :=
  c9_rating_never_overwritten ratedState 6 4 2 (by decide)

theorem filter_valid_mem_fields :
    ∀ qs : List RawQ, ∀ q ∈ filter_valid qs,
      q.qtype.isSome = true ∧ q.question.isSome = true ∧ q.options.isSome = true := by
  intro qs
  induction qs with
  | nil => intro q hq; exact absurd hq (List.not_mem_nil q)
  | cons q0 rest ih =>
    intro q hq
    simp only [filter_valid] at hq
    split_ifs at hq with ha hb hc
    · rcases List.mem_cons.mp hq with rfl | hmem
      · exact ⟨ha.1, ha.2, hb.2⟩
      · exact ih q hmem
    · rcases List.mem_cons.mp hq with rfl | hmem
      · exact ⟨ha.1, ha.2, rfl⟩
      · exact ih q hmem
    · exact ih q hq
    · exact ih q hq

theorem filter_valid_keeps_choice :
    ∀ qs : List RawQ, ∀ q ∈ qs, (q.qtype = some "MCQ" ∨ q.qtype = some "Radio") →
      q.question.isSome = true → q.options.isSome = true → q ∈ filter_valid qs := by
  intro qs
  induction qs with
  | nil => intro q hq; exact absurd hq (List.not_mem_nil q)
  | cons q0 rest ih =>
    intro q hq hkind hquestion hopts
    simp only [filter_valid]
    split_ifs with ha hb hc
    · rcases List.mem_cons.mp hq with rfl | hmem
      · exact List.mem_cons_self _ _
      · exact List.mem_cons_of_mem _ (ih q hmem hkind hquestion hopts)
    · rcases List.mem_cons.mp hq with rfl | hmem
      · exact absurd ⟨hkind, hopts⟩ hb
      · exact List.mem_cons_of_mem _ (ih q hmem hkind hquestion hopts)
    · rcases List.mem_cons.mp hq with rfl | hmem
      · exact absurd ⟨hkind, hopts⟩ hb
      · exact ih q hmem hkind hquestion hopts
    · rcases List.mem_cons.mp hq with rfl | hmem
      · refine absurd ⟨?_, hquestion⟩ ha
        rcases hkind with hk | hk <;> simp [hk]
      · exact ih q hmem hkind hquestion hopts

theorem filter_valid_keeps_input :
    ∀ qs : List RawQ, ∀ q ∈ qs, q.qtype = some "Input" → q.question.isSome = true →
      { q with options := some (q.options.getD []) } ∈ filter_valid qs := by
  intro qs
  induction qs with
  | nil => intro q hq; exact absurd hq (List.not_mem_nil q)
  | cons q0 rest ih =>
    intro q hq hkind hquestion
    simp only [filter_valid]
    split_ifs with ha hb hc
    · rcases List.mem_cons.mp hq with rfl | hmem
      · rcases hb.1 with hk | hk <;> rw [hkind] at hk <;> simp at hk
      · exact List.mem_cons_of_mem _ (ih q hmem hkind hquestion)
    · rcases List.mem_cons.mp hq with rfl | hmem
      · exact List.mem_cons_self _ _
      · exact List.mem_cons_of_mem _ (ih q hmem hkind hquestion)
    · rcases List.mem_cons.mp hq with rfl | hmem
      · exact absurd hkind hc
      · exact ih q hmem hkind hquestion
    · rcases List.mem_cons.mp hq with rfl | hmem
      · exact absurd ⟨by simp [hkind], hquestion⟩ ha
      · exact ih q hmem hkind hquestion

/-- C6 counterexample: an MCQ item whose options key is present but holds
the empty array is kept by the validation loop, not dropped — the code only
tests key presence, not non-emptiness. -/
theorem c6_counterexample :
    filter_valid [⟨some "MCQ", some "Which?", some []⟩]
      = [⟨some "MCQ", some "Which?", some []⟩] := by decide

/-- C6 (amended): an item of type MCQ or Radio is kept exactly when its
options key is present — even when it holds the empty array — and is
dropped when the key is absent; an Input item is kept with options
defaulted to the empty sequence; every kept item carries type, question and
options keys, so items missing type or question are dropped. -/
theorem c6_amended_validation (qs : List RawQ) :
    (∀ q ∈ filter_valid qs,
      q.qtype.isSome = true ∧ q.question.isSome = true ∧ q.options.isSome = true) ∧
    (∀ q ∈ qs, (q.qtype = some "MCQ" ∨ q.qtype = some "Radio") →
      q.question.isSome = true → q.options.isSome = true → q ∈ filter_valid qs) ∧
    (∀ q ∈ qs, (q.qtype = some "MCQ" ∨ q.qtype = some "Radio") →
      q.options = none → q ∉ filter_valid qs) ∧
    (∀ q ∈ qs, q.qtype = some "Input" → q.question.isSome = true →
      { q with options := some (q.options.getD []) } ∈ filter_valid qs) ∧
    (∀ q ∈ qs, q.qtype = none ∨ q.question = none → q ∉ filter_valid qs) := by
  refine ⟨filter_valid_mem_fields qs, filter_valid_keeps_choice qs, ?_,
    filter_valid_keeps_input qs, ?_⟩
  · intro q _ _ hnone hmem
    obtain ⟨-, -, h3⟩ := filter_valid_mem_fields qs q hmem
    rw [hnone] at h3
    simp at h3
  · intro q _ hbad hmem
    obtain ⟨h1, h2, -⟩ := filter_valid_mem_fields qs q hmem
    rcases hbad with hb | hb
    · rw [hb] at h1; simp at h1
    · rw [hb] at h2; simp at h2

/-- Witness for C6 (amended): an MCQ with a present (two-element) options
key is kept, an MCQ without the options key is dropped, an optionless Input
gets empty options, an item without a type is dropped. -/
theorem c6_amended_validation_witness :
    (⟨some "MCQ", some "q1", some ["a", "b"]⟩ : RawQ)
      ∈ filter_valid [⟨some "MCQ", some "q1", some ["a", "b"]⟩, ⟨none, some "q2", none⟩] ∧
    (⟨some "MCQ", some "q4", none⟩ : RawQ)
      ∉ filter_valid [⟨some "MCQ", some "q4", none⟩] ∧
    (⟨some "Input", some "q3", some []⟩ : RawQ)
      ∈ filter_valid [⟨some "Input", some "q3", none⟩] ∧
    (⟨none, some "q2", none⟩ : RawQ)
      ∉ filter_valid [⟨some "MCQ", some "q1", some ["a", "b"]⟩, ⟨none, some "q2", none⟩] :=
  ⟨(c6_amended_validation [⟨some "MCQ", some "q1", some ["a", "b"]⟩, ⟨none, some "q2", none⟩]).2.1
      ⟨some "MCQ", some "q1", some ["a", "b"]⟩ (by decide) (Or.inl rfl) rfl rfl,
   (c6_amended_validation [⟨some "MCQ", some "q4", none⟩]).2.2.1
      ⟨some "MCQ", some "q4", none⟩ (by decide) (Or.inl rfl) rfl,
   (c6_amended_validation [⟨some "Input", some "q3", none⟩]).2.2.2.1
      ⟨some "Input", some "q3", none⟩ (by decide) rfl rfl,
   (c6_amended_validation [⟨some "MCQ", some "q1", some ["a", "b"]⟩, ⟨none, some "q2", none⟩]).2.2.2.2
      ⟨none, some "q2", none⟩ (by decide) (Or.inl rfl)⟩

/-- C7: generation never propagates an error: a backend failure, a JSON
parse failure, or zero validated items all yield the fixed fallback set of
exactly 3 items (MCQ with 4 options, Radio with 3, Input with none), and
otherwise the first at most 5 validated items are returned in order. -/
theorem c7_generation_absorbs_failures :
    (generate_task_questions .backendFail = fallback_questions) ∧
    (generate_task_questions .parseFail = fallback_questions) ∧
    (∀ items, filter_valid items = [] →
      generate_task_questions (.parsed items) = fallback_questions) ∧
    (∀ items, filter_valid items ≠ [] →
      generate_task_questions (.parsed items) = (filter_valid items).take 5) ∧
    (fallback_questions.length = 3) ∧
    (fallback_questions.map RawQ.qtype = [some "MCQ", some "Radio", some "Input"]) ∧
    (fallback_questions.map (fun q => (q.options.getD []).length) = [4, 3, 0]) ∧
    (∀ outcome, (generate_task_questions outcome).length ≤ 5) := by
  refine ⟨rfl, rfl, ?_, ?_, rfl, rfl, rfl, ?_⟩
  · intro items h
    simp [generate_task_questions, h]
  · intro items h
    simp [generate_task_questions, h]
  · intro outcome
    cases outcome with
    | backendFail => decide
    | parseFail => decide
    | parsed items =>
      simp only [generate_task_questions]
      split_ifs
      · decide
      · rw [List.length_take]
        exact Nat.min_le_left 5 _

/-- Witness for C7: an empty parse yields the fallback, a parse with valid
items is truncated to its first 5 validated items. -/
theorem c7_generation_absorbs_failures_witness :
    generate_task_questions (.parsed []) = fallback_questions ∧
    generate_task_questions (.parsed fallback_questions)
      = (filter_valid fallback_questions).take 5 :=
  ⟨c7_generation_absorbs_failures.2.2.1 [] rfl,
   c7_generation_absorbs_failures.2.2.2.1 fallback_questions (by decide)⟩

/-- The session after the rated analysis and one accepted follow-up. -/
def fu1State : SessionState :=
  runEvents (ratedEvents ++ [.followUpSubmit "f1" (.ok "r1")])

/-- C10 counterexample: after one follow-up the most recent assistant Turn
(index 8, a follow-up reply marked final/follow-up) carries no rating, yet
the next follow-up input is accepted and appends two Turns — the flag stays
true once set, so later follow-ups are not gated on rating the newest
reply. -/
theorem c10_counterexample :
    fu1State.conversation.length = 9 ∧
    (fu1State.conversation[8]?).map Turn.role = some Role.assistant ∧
    (fu1State.conversation[8]?).map Turn.is_final_or_follow_up = some true ∧
    lookupRating 8 fu1State.ratings = none ∧
    (step fu1State (.followUpSubmit "f2" (.ok "r2"))).conversation.length = 11 := by
  decide

/-- C10 (amended): the follow-up gate flag starts false; while it is false a
follow-up submission changes nothing (no Turn is appended); and the flag
turns true only inside the rating-submission handler, when the submitted
rating targets the last conversation Turn, an unrated assistant Turn marked
final/follow-up, whose rating is then recorded.  (Once true, the flag stays
true for later follow-ups within the task.) -/
theorem c10_amended_follow_up_gate :
    initState.show_follow_up = false ∧
    (∀ (s : SessionState) (input : String) (r : Except String String),
      s.show_follow_up = false → step s (.followUpSubmit input r) = s) ∧
    (∀ (s : SessionState) (e : Event), s.show_follow_up = false →
      (step s e).show_follow_up = true →
      ∃ idx v, e = .ratingSubmit idx v ∧ idx + 1 = s.conversation.length ∧
        ∃ m, s.conversation[idx]? = some m ∧ m.role = .assistant
          ∧ m.is_final_or_follow_up = true ∧ lookupRating idx s.ratings = none
          ∧ lookupRating idx ((step s e).ratings) = some v) := by
  refine ⟨rfl, ?_, ?_⟩
  · intro s input r hs
    simp only [step, followUpStep]
    rw [if_neg fun hc => absurd hc.2.2.2.2.2.2.1 (by simp [hs])]
  · intro s e hs hset
    cases e with
    | profileSubmit n i sz d =>
      exfalso
      simp only [step, profileStep] at hset
      split_ifs at hset <;> simp_all
    | taskSelect t =>
      exfalso
      simp only [step, taskStep] at hset
      split_ifs at hset
      simp_all
    | resolveQuestions o =>
      exfalso
      simp only [step, resolveStep] at hset
      repeat' split at hset
      all_goals simp_all
    | answerSubmit a =>
      exfalso
      simp only [step, answerStep] at hset
      repeat' split at hset
      all_goals simp_all
    | analysisRun r =>
      exfalso
      simp only [step, analysisStep] at hset
      repeat' split at hset
      all_goals simp_all
    | followUpSubmit inp r =>
      exfalso
      simp only [step, followUpStep] at hset
      repeat' split at hset
      all_goals simp_all
    | clearHistory =>
      exfalso
      simp only [step, clearStep] at hset
      simp at hset
    | ratingSubmit idx v =>
      simp only [step, ratingStep] at hset
      by_cases h1 : s.company_info ≠ none ∧ s.selected_task ≠ none
          ∧ s.current_questions ≠ []
      case neg =>
        rw [if_neg h1] at hset
        exact absurd hset (by simp [hs])
      rw [if_pos h1] at hset
      rcases hm : s.conversation[idx]? with _ | m
      · simp only [hm] at hset
        exact absurd hset (by simp [hs])
      simp only [hm] at hset
      by_cases h2 : m.role = Role.assistant ∧ m.is_final_or_follow_up = true
          ∧ lookupRating idx s.ratings = none
      case neg =>
        simp only [if_neg h2] at hset
        exact absurd hset (by simp [hs])
      simp only [if_pos h2] at hset
      by_cases h3 : idx = s.conversation.length - 1 ∧ s.show_follow_up = false
      case neg =>
        simp only [if_neg h3] at hset
        exact absurd hset (by simp [hs])
      have hlt : idx < s.conversation.length := by
        by_contra hge
        rw [List.getElem?_eq_none (by omega)] at hm
        exact Option.noConfusion hm
      refine ⟨idx, v, rfl, by omega, m, hm, h2.1, h2.2.1, h2.2.2, ?_⟩
      simp only [step, ratingStep, if_pos h1, hm, if_pos h2]
      simp [lookupRating]

/-- Witness for C10 (amended): in the fresh session a follow-up submission
is ignored. -/
theorem c10_amended_follow_up_gate_witness :
    step initState (.followUpSubmit "hello" (.ok "reply")) = initState :=
  c10_amended_follow_up_gate.2.1 initState "hello" (.ok "reply") rfl

/-- C1 counterexample: at the reachable pre-analysis state, a backend
failure inside the Agent is absorbed into an error string which the
orchestrator treats as a successful analysis: the error text is appended
as the final Turn, finalResponseGenerated becomes true and no session
error is recorded — so there is no retry with these inputs. -/
theorem c1_counterexample :
    ((step analysisReadyState
        (.analysisRun (.ok (generate_final_response
          (.error "boom"))))).final_response_generated = true) ∧
    ((step analysisReadyState
        (.analysisRun (.ok (generate_final_response
          (.error "boom"))))).conversation.length
      = analysisReadyState.conversation.length + 1) ∧
    ((step analysisReadyState
        (.analysisRun (.ok (generate_final_response
          (.error "boom"))))).analysis_error = none) := by
  decide

/-- C1 (amended): when the final-analysis step itself raises in the
orchestrator (the Agent call throws rather than returning a string — a
backend CompletionError alone cannot cause this, being absorbed by the
Agent), the session error is recorded, finalResponseGenerated stays false,
no Turn is appended, the Answers and Conversation are intact and the call
counter unchanged; a subsequent call that returns a string appends exactly
one final Turn. -/
theorem c1_amended_analysis_retry (s : SessionState) (e r : String)
    (h1 : s.company_info ≠ none) (h2 : s.selected_task ≠ none)
    (h3 : s.current_questions ≠ []) (h4 : s.question_phase = false)
    (h5 : s.final_response_generated = false) :
    ((step s (.analysisRun (.error e))).analysis_error
        = some ("Failed to generate analysis: " ++ e)) ∧
    ((step s (.analysisRun (.error e))).final_response_generated = false) ∧
    ((step s (.analysisRun (.error e))).conversation = s.conversation) ∧
    ((step s (.analysisRun (.error e))).answers = s.answers) ∧
    ((step s (.analysisRun (.error e))).api_call_count = s.api_call_count) ∧
    ((step (step s (.analysisRun (.error e)))
        (.analysisRun (.ok r))).final_response_generated = true) ∧
    ((step (step s (.analysisRun (.error e))) (.analysisRun (.ok r))).conversation
        = s.conversation ++ [⟨.assistant, r, true⟩]) := by
  have hg : s.company_info ≠ none ∧ s.selected_task ≠ none ∧ s.current_questions ≠ []
      ∧ s.question_phase = false ∧ s.final_response_generated = false :=
    ⟨h1, h2, h3, h4, h5⟩
  have hstep1 : step s (.analysisRun (.error e))
      = { s with analysis_error := some ("Failed to generate analysis: " ++ e) } := by
    simp only [step, analysisStep, if_pos hg]
  rw [hstep1]
  have hg2 : ({ s with analysis_error := some ("Failed to generate analysis: " ++ e) }
        : SessionState).company_info ≠ none
      ∧ ({ s with analysis_error := some ("Failed to generate analysis: " ++ e) }
        : SessionState).selected_task ≠ none
      ∧ ({ s with analysis_error := some ("Failed to generate analysis: " ++ e) }
        : SessionState).current_questions ≠ []
      ∧ ({ s with analysis_error := some ("Failed to generate analysis: " ++ e) }
        : SessionState).question_phase = false
      ∧ ({ s with analysis_error := some ("Failed to generate analysis: " ++ e) }
        : SessionState).final_response_generated = false :=
    ⟨h1, h2, h3, h4, h5⟩
  have hstep2 : step ({ s with
        analysis_error := some ("Failed to generate analysis: " ++ e) } : SessionState)
      (.analysisRun (.ok r))
      = { s with
          analysis_error := some ("Failed to generate analysis: " ++ e)
          api_call_count := s.api_call_count + 1
          conversation := s.conversation ++ [⟨.assistant, r, true⟩]
          final_response_generated := true } := by
    simp only [step, analysisStep, if_pos hg2]
  rw [hstep2]
  exact ⟨rfl, h5, rfl, rfl, rfl, rfl, rfl⟩

/-- Witness for C1 (amended): the orchestrator-raise path at the concrete
pre-analysis state, followed by a successful retry. -/
theorem c1_amended_analysis_retry_witness :
    ((step analysisReadyState (.analysisRun (.error "boom"))).final_response_generated
      = false) ∧
    ((step (step analysisReadyState (.analysisRun (.error "boom")))
        (.analysisRun (.ok "Analysis"))).conversation
      = analysisReadyState.conversation ++ [⟨.assistant, "Analysis", true⟩]) :=
  ⟨(c1_amended_analysis_retry analysisReadyState "boom" "Analysis"
      (by decide) (by decide) (by decide) (by decide) (by decide)).2.1,
   (c1_amended_analysis_retry analysisReadyState "boom" "Analysis"
      (by decide) (by decide) (by decide) (by decide) (by decide)).2.2.2.2.2.2⟩

/-- C2 counterexample: committing a structurally different Profile at the
reachable mid-session state clears cache, answers, counters and ratings but
leaves the conversation in place — the conversation is not part of the
profile-change reset. -/
theorem c2_counterexample :
    analysisReadyState.conversation ≠ [] ∧
    ((step analysisReadyState
        (.profileSubmit (lit "Other") (lit "Retail") [] [])).company_info
      ≠ analysisReadyState.company_info) ∧
    ((step analysisReadyState
        (.profileSubmit (lit "Other") (lit "Retail") [] [])).question_cache = []) ∧
    ((step analysisReadyState
        (.profileSubmit (lit "Other") (lit "Retail") [] [])).conversation
      = analysisReadyState.conversation) := by
  decide

/-- C2 (amended): committing a complete Profile whose normalized form
differs from the current one resets the question cache, answers, counters,
ratings, task selection, current questions, the final-response flag, the
follow-up gate and the recorded analysis error, and stores the new profile
— but the conversation is preserved (it is cleared only on Task change or
Clear History); committing a Profile equal to the current one changes no
session state. -/
theorem c2_amended_profile_reset (s : SessionState) (n i sz d : List Nat)
    (hn : n ≠ []) (hi : i ≠ []) :
    (some (normalize_company_info
        [("name", n), ("industry", i), ("size", sz), ("description", d)])
        ≠ s.company_info →
      ((step s (.profileSubmit n i sz d)).question_cache = [] ∧
       (step s (.profileSubmit n i sz d)).answers = [] ∧
       (step s (.profileSubmit n i sz d)).questions_asked = 0 ∧
       (step s (.profileSubmit n i sz d)).follow_up_count = 0 ∧
       (step s (.profileSubmit n i sz d)).ratings = [] ∧
       (step s (.profileSubmit n i sz d)).current_questions = [] ∧
       (step s (.profileSubmit n i sz d)).selected_task = none ∧
       (step s (.profileSubmit n i sz d)).final_response_generated = false ∧
       (step s (.profileSubmit n i sz d)).show_follow_up = false ∧
       (step s (.profileSubmit n i sz d)).analysis_error = none ∧
       (step s (.profileSubmit n i sz d)).company_info
          = some (normalize_company_info
              [("name", n), ("industry", i), ("size", sz), ("description", d)]) ∧
       (step s (.profileSubmit n i sz d)).conversation = s.conversation)) ∧
    (some (normalize_company_info
        [("name", n), ("industry", i), ("size", sz), ("description", d)])
        = s.company_info →
      step s (.profileSubmit n i sz d) = s) := by
  constructor
  · intro hne
    simp [step, profileStep, if_pos (And.intro hn hi), if_pos hne]
  · intro heq
    have hcond : ¬(some (normalize_company_info
        [("name", n), ("industry", i), ("size", sz), ("description", d)])
        ≠ s.company_info) := fun hc => hc heq
    simp only [step, profileStep, if_pos (And.intro hn hi), if_neg hcond]

/-- Witness for C2 (amended): a changed profile clears the cache and keeps
the 6-Turn conversation; resubmitting the identical profile is a no-op. -/
theorem c2_amended_profile_reset_witness :
    ((step analysisReadyState
        (.profileSubmit (lit "Other") (lit "Retail") [] [])).conversation
      = analysisReadyState.conversation) ∧
    step analysisReadyState
        (.profileSubmit (lit "Acme") (lit "Retail") (lit "50") [])
      = analysisReadyState :=
  ⟨((c2_amended_profile_reset analysisReadyState (lit "Other") (lit "Retail") [] []
      (by decide) (by decide)).1 (by decide)).2.2.2.2.2.2.2.2.2.2.2,
   (c2_amended_profile_reset analysisReadyState (lit "Acme") (lit "Retail") (lit "50") []
      (by decide) (by decide)).2 (by decide)⟩

/-- C4 counterexample: the completion-call counter advances even when the
underlying completion call failed, both for the final analysis and for a
follow-up, because the Agent absorbs the failure and app.py counts the call
whenever the Agent method returns. -/
theorem c4_counterexample :
    ((step analysisReadyState
        (.analysisRun (.ok (generate_final_response
          (.error "backend down"))))).api_call_count
      = analysisReadyState.api_call_count + 1) ∧
    ((step ratedState
        (.followUpSubmit "f1" (.ok (generate_follow_up_response
          (.error "backend down"))))).api_call_count
      = ratedState.api_call_count + 1) := by
  decide

/-- C4 (amended): the orchestrator increments the counter whenever the
Agent operation returns a string — on backend success and on absorbed
backend failure alike; the counter is unchanged only when the Agent call
itself raises in the orchestrator. -/
theorem c4_amended_call_counter (s : SessionState) (b : Except String String)
    (inp msg : String) :
    ((s.company_info ≠ none ∧ s.selected_task ≠ none ∧ s.current_questions ≠ []
        ∧ s.question_phase = false ∧ s.final_response_generated = false) →
      ((step s (.analysisRun (.ok (generate_final_response b)))).api_call_count
          = s.api_call_count + 1) ∧
      ((step s (.analysisRun (.error msg))).api_call_count = s.api_call_count)) ∧
    ((s.company_info ≠ none ∧ s.selected_task ≠ none ∧ s.current_questions ≠ []
        ∧ s.analysis_error = none ∧ s.final_response_generated = true
        ∧ s.follow_up_count < max_follow_ups ∧ s.show_follow_up = true ∧ inp ≠ "") →
      ((step s (.followUpSubmit inp
          (.ok (generate_follow_up_response b)))).api_call_count
          = s.api_call_count + 1) ∧
      ((step s (.followUpSubmit inp (.error msg))).api_call_count
          = s.api_call_count)) := by
  constructor
  · intro hg
    constructor
    · simp only [step, analysisStep, if_pos hg]
    · simp only [step, analysisStep, if_pos hg]
  · intro hg
    constructor
    · simp only [step, followUpStep, if_pos hg]
    · simp only [step, followUpStep, if_pos hg]

/-- Witness for C4 (amended): both gates discharged at concrete reachable
states, with an absorbed backend failure on the success path. -/
theorem c4_amended_call_counter_witness :
    ((step analysisReadyState
        (.analysisRun (.ok (generate_final_response
          (.error "x"))))).api_call_count
      = analysisReadyState.api_call_count + 1) ∧
    ((step ratedState (.followUpSubmit "f1" (.error "y"))).api_call_count
      = ratedState.api_call_count) :=
  ⟨((c4_amended_call_counter analysisReadyState (.error "x") "f1" "y").1
      (by decide)).1,
   ((c4_amended_call_counter ratedState (.error "x") "f1" "y").2
      (by decide)).2⟩

/-- C5 counterexample: at the reachable state with a non-empty question
cache, selecting a different Task changes the task but leaves the cache
untouched — the cache survives Task changes. -/
theorem c5_counterexample :
    analysisReadyState.question_cache ≠ [] ∧
    ((step analysisReadyState (.taskSelect "Organizational Assessment")).selected_task
      ≠ analysisReadyState.selected_task) ∧
    ((step analysisReadyState (.taskSelect "Organizational Assessment")).question_cache
      = analysisReadyState.question_cache) := by
  decide

/-- C5 (amended): a Task change always preserves the question cache; the
cache is cleared wholesale only on a (structural) Profile change and on
the explicit Clear History reset. -/
theorem c5_amended_cache_scope (s : SessionState) (t : String) (n i sz d : List Nat) :
    ((step s (.taskSelect t)).question_cache = s.question_cache) ∧
    ((step s .clearHistory).question_cache = []) ∧
    (n ≠ [] → i ≠ [] →
      some (normalize_company_info
        [("name", n), ("industry", i), ("size", sz), ("description", d)])
        ≠ s.company_info →
      (step s (.profileSubmit n i sz d)).question_cache = []) := by
  refine ⟨?_, rfl, ?_⟩
  · simp only [step, taskStep]
    split_ifs <;> rfl
  · intro hn hi hne
    simp only [step, profileStep, if_pos (And.intro hn hi), if_pos hne]

/-- Witness for C5 (amended): the profile-change clause at the concrete
mid-session state. -/
theorem c5_amended_cache_scope_witness :
    (step analysisReadyState
        (.profileSubmit (lit "Other") (lit "Retail") [] [])).question_cache = [] :=
  (c5_amended_cache_scope analysisReadyState "Organizational Assessment"
    (lit "Other") (lit "Retail") [] []).2.2 (by decide) (by decide) (by decide)

end BizChat
